import Mathlib

set_option maxRecDepth 8000

/-!
Verification of the structured-extraction-with-fallback pipeline of an
HR-assistant application (source: `utils.py` and `prompts.py`).

The Python source is shallowly embedded: pydantic models become Lean
structures with the same defaults, `re` patterns become explicit scanners
over `List Char`, `json.loads` becomes a fuel-based JSON parser, and the
network-backed chat model becomes an explicit `Backend` function parameter.
Every orchestrator additionally returns a `Nat` counting how many times the
backend was invoked (the source has exactly one `llm.invoke` call site per
orchestrator); this instrumentation supports the call-counting-stub
observations and changes nothing else.
-/

/-! ## Character classes (Python `str`/`re` semantics, ASCII-centred) -/

/-- Characters treated as whitespace by Python `str.strip` and `\s`
(the Unicode whitespace set recognised by CPython). -/
def isPySpace (c : Char) : Bool :=
  c = ' ' || c = '\t' || c = '\n' || c = '\r' || c = '\x0b' || c = '\x0c' ||
  (0x1c ≤ c.toNat && c.toNat ≤ 0x1f) || c.toNat = 0x85 || c.toNat = 0xa0 ||
  c.toNat = 0x1680 || (0x2000 ≤ c.toNat && c.toNat ≤ 0x200a) ||
  c.toNat = 0x2028 || c.toNat = 0x2029 || c.toNat = 0x202f ||
  c.toNat = 0x205f || c.toNat = 0x3000

/-- ASCII letters, as matched by `[a-zA-Z]`. -/
def isAsciiLetter (c : Char) : Bool :=
  c.isUpper || c.isLower

/-- Word characters for the `\b` boundary of the keyword pattern
(ASCII model of Python `\w`). -/
def isWordChar (c : Char) : Bool :=
  isAsciiLetter c || c.isDigit || c = '_'

/-! ## Data model (`utils.py`: pydantic models and the config dataclass) -/

/-- `Publication(BaseModel)`: key publication details. -/
structure Publication where
  title : String := "N/A"
  journal : String := "N/A"
  year : Option Int := none
deriving Repr, DecidableEq

/-- `Grant(BaseModel)`: grant or funding record. -/
structure Grant where
  title : String := "N/A"
  amount : Option String := none
  year : Option Int := none
  sponsor : Option String := none
deriving Repr, DecidableEq

/-- `CVProfile(BaseModel)`: structured representation of a parsed CV,
with the pydantic field defaults. -/
structure CVProfile where
  name : String := "Unknown"
  current_institution : String := "N/A"
  estimated_ranking : String := "N/A"
  h_index : Option String := none
  research_focus_keywords : List String := []
  key_publications : List Publication := []
  grants : List Grant := []
  notes : String := ""
deriving Repr, DecidableEq

/-- `ModelConfig` dataclass. -/
structure ModelConfig where
  provider : String
  model : String
  api_key : String
deriving Repr, DecidableEq

/-! ## Heuristic extractor (`heuristic_extract`) -/

/-- Match the pattern characters case-insensitively (ASCII fold) against the
front of the input; on success return the remaining input. -/
def matchCI : List Char → List Char → Option (List Char)
  | [], cs => some cs
  | _ :: _, [] => none
  | p :: ps, c :: cs => if c.toLower = p.toLower then matchCI ps cs else none

/-- Separator class `[:\s]` of the H-index regex. -/
def isHSep (c : Char) : Bool := c = ':' || isPySpace c

/-- The greedy `-?` of the pattern: an optional leading hyphen (if present
it is consumed; the regex cannot succeed on the no-consume alternative
because `I` is not `-`). -/
def hyphenSkip : List Char → List Char
  | '-' :: r => r
  | r => r

/-- Digit run following the separator run, at a given suffix. -/
def hDigitsAfter (p : Char → Bool) (rest3 : List Char) : List Char :=
  (rest3.drop (rest3.takeWhile p).length).takeWhile Char.isDigit

/-- Attempt the regex `H-?Index[:\s]+(\d+)` (IGNORECASE) anchored at the
front of the input; return the captured digit run. -/
def tryHIndexAt (cs : List Char) : Option String :=
  match cs with
  | [] => none
  | c :: rest =>
    if c.toLower = 'h' then
      match matchCI ['i', 'n', 'd', 'e', 'x'] (hyphenSkip rest) with
      | none => none
      | some rest3 =>
        if (rest3.takeWhile isHSep).isEmpty then none
        else if (hDigitsAfter isHSep rest3).isEmpty then none
        else some (hDigitsAfter isHSep rest3).asString
    else none

/-- `re.search` for the H-index pattern: first (leftmost) match wins. -/
def searchHIndex : List Char → Option String
  | [] => none
  | c :: rest =>
    match tryHIndexAt (c :: rest) with
    | some s => some s
    | none => searchHIndex rest

/-- `re.findall(r"\b[A-Z][a-zA-Z]{3,}\b", text)`: scan for capitalised
words of total length at least 4 delimited by word boundaries.  The Bool
argument records whether the previous character was a word character. -/
def scanKeywords : List Char → Bool → List String
  | [], _ => []
  | c :: rest, prevWord =>
    if !prevWord && ('A' ≤ c && c ≤ 'Z') then
      let tailLetters := rest.takeWhile isAsciiLetter
      let after := rest.drop tailLetters.length
      if tailLetters.length + 1 ≥ 4 &&
          (after.isEmpty || !isWordChar (after.headD ' ')) then
        (c :: tailLetters).asString :: scanKeywords after true
      else
        scanKeywords rest true
    else
      scanKeywords rest (isWordChar c)
termination_by cs _ => cs.length
decreasing_by
  · simp only [List.length_cons, List.length_drop]
    omega
  · simp
  · simp

/-- Deduplication keeping the first occurrence.  The source builds a Python
set and lists it, which yields an implementation-defined order; the spec
flags this as a reproducibility gap, and this model fixes first-appearance
order.  No claim depends on the order. -/
def dedupFirst : List String → List String
  | [] => []
  | x :: xs => x :: dedupFirst (xs.filter (· ≠ x))
termination_by l => l.length
decreasing_by
  have h := List.length_filter_le (· ≠ x) xs
  simp only [List.length_cons]
  omega

/-- Does the (case-folded) needle occur at the front of the haystack? -/
def headIsCI (needle : List Char) (cs : List Char) : Bool :=
  (matchCI needle cs).isSome

/-- `re.search(journal, text, re.IGNORECASE)` for a literal pattern:
case-insensitive substring occurrence. -/
def containsCI (needle : List Char) : List Char → Bool
  | [] => headIsCI needle []
  | c :: cs => headIsCI needle (c :: cs) || containsCI needle cs

/-- The fixed journal list scanned by `heuristic_extract`. -/
def journalNames : List String := ["Nature", "Science", "Cell", "Lancet"]

/-- The publication appended for a matched journal name. -/
def journalPub (j : String) : Publication :=
  { title := "Highlight from " ++ j, journal := j }

/-- `heuristic_extract(text)`: lightweight heuristic extraction without LLM
calls. -/
def heuristic_extract (text : String) : CVProfile :=
  let h_index_match := searchHIndex text.data
  let keywords := (dedupFirst (scanKeywords text.data false)).take 10
  let publications :=
    (journalNames.filter (fun j => containsCI j.data text.data)).map journalPub
  { h_index := h_index_match
    research_focus_keywords := keywords
    key_publications := publications
    notes := "Heuristic extraction; refine with LLM for richer details." }

/-! ## Python string helpers used by the prompt templates
(`textwrap.dedent` and `str.strip`) -/

/-- Characters counted as indentation by `textwrap.dedent`. -/
def isIndentChar (c : Char) : Bool := c = ' ' || c = '\t'

/-- `str.strip()`: drop Python whitespace from both ends. -/
def pyStrip (s : String) : String :=
  (((s.data.dropWhile isPySpace).reverse.dropWhile isPySpace).reverse).asString

/-- `textwrap.dedent` first blanks lines that consist solely of spaces and
tabs. -/
def blankWsLine (l : String) : String :=
  if !l.isEmpty && l.data.all isIndentChar then "" else l

/-- Leading space-and-tab run of a line containing some other character. -/
def lineIndent (l : String) : Option (List Char) :=
  if l.isEmpty || l.data.all isIndentChar then none
  else some (l.data.takeWhile isIndentChar)

/-- Longest common lead of two character lists. -/
def commonLead : List Char → List Char → List Char
  | x :: xs, y :: ys => if x = y then x :: commonLead xs ys else []
  | _, _ => []

/-- `textwrap.dedent(text)`: remove the longest common leading whitespace of
all non-blank lines. -/
def pyDedent (s : String) : String :=
  let lines := (s.splitOn "\n").map blankWsLine
  let indents := lines.filterMap lineIndent
  let margin := match indents with
    | [] => []
    | i :: is => is.foldl commonLead i
  let out := lines.map fun l =>
    if margin.isPrefixOf l.data then (l.data.drop margin.length).asString else l
  String.intercalate "\n" out

/-! ## Prompt builder (`prompts.py`) -/

/-- The raw triple-quoted literal of `parsing_prompt`. -/
def parsing_prompt_raw : String :=
  "\n        You are an expert research administrator. Extract the following fields from the provided CV text.\n        Return a compact JSON with keys: name, current_institution, estimated_ranking, h_index,\n        research_focus_keywords (list), key_publications (list of \x7btitle, journal, year\x7d),\n        grants (list of \x7btitle, amount, year, sponsor\x7d), notes.\n\n        Journals of interest include Nature, Science, Cell, and The Lancet. Use N/A when not found.\n        "

/-- `prompts.parsing_prompt()`. -/
def parsing_prompt : String := pyStrip (pyDedent parsing_prompt_raw)

/-- `prompts.matching_prompt(cv_summary, target_direction)` (the f-string is
formatted before `dedent`/`strip` run, exactly as in the source). -/
def matching_prompt (cv_summary : String) (target_direction : String) : String :=
  pyStrip (pyDedent
    ("\n        You are assisting a medical research institute to evaluate faculty candidates.\n        Consider the following parsed CV data:\n" ++
     cv_summary ++
     "\n\n        Target research direction: " ++ target_direction ++
     "\n\n        Provide a JSON with: suitability_score (0-100), reasoning (2-3 sentences),\n        strengths (list), gaps (list), recommended_projects (list of short ideas).\n        "))

/-! ## JSON values and `json.loads` -/

/-- Decoded JSON values.  A number keeps its integer part and the textual
fraction/exponent suffix (empty for integers), which is all the pipeline
ever inspects. -/
inductive Json where
  | null
  | bool (b : Bool)
  | num (i : Int) (suffix : String)
  | str (s : String)
  | arr (items : List Json)
  | obj (fields : List (String × Json))

/-- JSON insignificant whitespace. -/
def isJsonWs (c : Char) : Bool := c = ' ' || c = '\t' || c = '\n' || c = '\r'

/-- Skip insignificant whitespace. -/
def skipWs (cs : List Char) : List Char := cs.dropWhile isJsonWs

/-- Hexadecimal digit value (code points 0-9, a-f, A-F). -/
def hexVal (c : Char) : Option Nat :=
  let n := c.toNat
  if 48 ≤ n && n ≤ 57 then some (n - 48)
  else if 97 ≤ n && n ≤ 102 then some (n - 87)
  else if 65 ≤ n && n ≤ 70 then some (n - 55)
  else none

/-- Single-character string escapes. -/
def escChar (c : Char) : Option Char :=
  match c with
  | '"' => some '"'
  | '\\' => some '\\'
  | '/' => some '/'
  | 'b' => some '\x08'
  | 'f' => some '\x0c'
  | 'n' => some '\n'
  | 'r' => some '\r'
  | 't' => some '\t'
  | _ => none

/-- Body of a JSON string, after the opening quote (strict mode: raw control
characters are rejected, as in `json.loads`). -/
def parseStringBody : Nat → List Char → List Char → Except String (String × List Char)
  | 0, _, _ => .error "string: out of fuel"
  | fuel + 1, acc, cs =>
    match cs with
    | [] => .error "Unterminated string"
    | '"' :: rest => .ok (acc.reverse.asString, rest)
    | '\\' :: rest =>
      match rest with
      | 'u' :: h1 :: h2 :: h3 :: h4 :: rest2 =>
        match hexVal h1, hexVal h2, hexVal h3, hexVal h4 with
        | some a, some b, some c, some d =>
          parseStringBody fuel (Char.ofNat (((a * 16 + b) * 16 + c) * 16 + d) :: acc) rest2
        | _, _, _, _ => .error "Invalid unicode escape"
      | e :: rest2 =>
        match escChar e with
        | some c => parseStringBody fuel (c :: acc) rest2
        | none => .error "Invalid escape"
      | [] => .error "Unterminated string"
    | c :: rest =>
      if c.toNat < 0x20 then .error "Invalid control character"
      else parseStringBody fuel (c :: acc) rest

/-- Numeric digit run to a natural number. -/
def digitsToNat (ds : List Char) : Nat :=
  ds.foldl (fun acc c => 10 * acc + (c.toNat - 48)) 0

/-- Optional fraction and exponent of a JSON number
(`(\.\d+)?([eE][+-]?\d+)?`); returns the suffix text and the rest. -/
def numSuffix (cs : List Char) : List Char × List Char :=
  let (fracChars, cs1) := match cs with
    | '.' :: r =>
      let ds := r.takeWhile Char.isDigit
      if ds.isEmpty then (([] : List Char), cs) else ('.' :: ds, r.drop ds.length)
    | _ => ([], cs)
  let (expChars, cs2) := match cs1 with
    | e :: r =>
      if e = 'e' || e = 'E' then
        let (signChars, r2) := match r with
          | s :: r3 => if s = '+' || s = '-' then (([s] : List Char), r3) else ([], s :: r3)
          | [] => ([], ([] : List Char))
        let ds := r2.takeWhile Char.isDigit
        if ds.isEmpty then (([] : List Char), cs1) else (e :: (signChars ++ ds), r2.drop ds.length)
      else ([], cs1)
    | [] => ([], cs1)
  (fracChars ++ expChars, cs2)

/-- JSON number (`-?(0|[1-9]\d*)(\.\d+)?([eE][+-]?\d+)?`). -/
def parseNumber (cs : List Char) : Except String (Json × List Char) :=
  let (neg, body) := match cs with
    | '-' :: tl => (true, tl)
    | _ => (false, cs)
  match body with
  | [] => .error "Expecting value"
  | c :: rest =>
    if !c.isDigit then .error "Expecting value"
    else
      let (intDigits, afterInt) :=
        if c = '0' then (([c] : List Char), rest)
        else (c :: rest.takeWhile Char.isDigit, rest.drop (rest.takeWhile Char.isDigit).length)
      let (suffix, afterNum) := numSuffix afterInt
      let n : Int := Int.ofNat (digitsToNat intDigits)
      .ok (.num (if neg then -n else n) suffix.asString, afterNum)

mutual

/-- One JSON value at the front of the input (fuel-based recursion). -/
def parseValue : Nat → List Char → Except String (Json × List Char)
  | 0, _ => .error "out of fuel"
  | fuel + 1, cs =>
    match cs with
    | [] => .error "Expecting value"
    | 'n' :: 'u' :: 'l' :: 'l' :: rest => .ok (.null, rest)
    | 't' :: 'r' :: 'u' :: 'e' :: rest => .ok (.bool true, rest)
    | 'f' :: 'a' :: 'l' :: 's' :: 'e' :: rest => .ok (.bool false, rest)
    | '"' :: rest => do
      let (s, r) ← parseStringBody (rest.length + 1) [] rest
      .ok (.str s, r)
    | '\x5b' :: rest =>
      let r1 := skipWs rest
      match r1 with
      | '\x5d' :: r2 => .ok (.arr [], r2)
      | _ => parseElems fuel r1 []
    | '\x7b' :: rest =>
      let r1 := skipWs rest
      match r1 with
      | '\x7d' :: r2 => .ok (.obj [], r2)
      | _ => parseMembers fuel r1 []
    | _ => parseNumber cs

/-- Comma-separated array elements, then the closing bracket. -/
def parseElems : Nat → List Char → List Json → Except String (Json × List Char)
  | 0, _, _ => .error "out of fuel"
  | fuel + 1, cs, acc => do
    let (v, r) ← parseValue fuel cs
    let r1 := skipWs r
    match r1 with
    | ',' :: r2 => parseElems fuel (skipWs r2) (v :: acc)
    | '\x5d' :: r2 => .ok (.arr (v :: acc).reverse, r2)
    | _ => .error "Expecting delimiter"

/-- Comma-separated object members, then the closing brace. -/
def parseMembers : Nat → List Char → List (String × Json) → Except String (Json × List Char)
  | 0, _, _ => .error "out of fuel"
  | fuel + 1, cs, acc =>
    match cs with
    | '"' :: rest => do
      let (k, r) ← parseStringBody (rest.length + 1) [] rest
      let r1 := skipWs r
      match r1 with
      | ':' :: r2 => do
        let (v, r3) ← parseValue fuel (skipWs r2)
        let r4 := skipWs r3
        match r4 with
        | ',' :: r5 => parseMembers fuel (skipWs r5) ((k, v) :: acc)
        | '\x7d' :: r5 => .ok (.obj ((k, v) :: acc).reverse, r5)
        | _ => .error "Expecting delimiter"
      | _ => .error "Expecting colon"
    | _ => .error "Expecting property name"

end

/-- `json.loads`: decode one JSON document, rejecting trailing data. -/
def parseJson (s : String) : Except String Json := do
  let cs := skipWs s.data
  let (v, rest) ← parseValue (2 * cs.length + 2) cs
  if (skipWs rest).isEmpty then .ok v else .error "Extra data"

/-! ## Schema validation (`CVProfile(**parsed)`, pydantic v1 semantics) -/

/-- Python `dict` built from JSON object members: a later duplicate key
overwrites an earlier one, so lookups return the last occurrence. -/
def lookupLast (kvs : List (String × Json)) (k : String) : Option Json :=
  match kvs with
  | [] => none
  | (k2, v) :: rest =>
    match lookupLast rest k with
    | some v2 => some v2
    | none => if k2 = k then some v else none

/-- Decimal rendering of the integer part plus the literal suffix: the value
`str(...)` would show for the corresponding Python number. -/
def numText (i : Int) (suffix : String) : String :=
  (if i < 0 then "-" ++ toString i.natAbs else toString i.natAbs) ++ suffix

/-- pydantic `str` field validation: strings pass through, numbers and
booleans are coerced to their text, every other shape is an error. -/
def coerceStr : Json → Except String String
  | .str s => .ok s
  | .num i suffix => .ok (numText i suffix)
  | .bool b => .ok (if b then "True" else "False")
  | _ => .error "str type expected"

/-- pydantic `int` field validation: integral numbers are taken as given,
a pure fraction is truncated (Python `int(float)`), digit strings are
parsed, booleans coerce to 0/1; everything else is an error. -/
def coerceInt : Json → Except String Int
  | .num i suffix =>
    if suffix.isEmpty then .ok i
    else if suffix.startsWith "." && (suffix.drop 1).data.all Char.isDigit &&
        !(suffix.drop 1).isEmpty then .ok i
    else .error "int type expected"
  | .str s =>
    let (neg, ds) := match s.data with
      | '-' :: r => (true, r)
      | r => (false, r)
    if !ds.isEmpty && ds.all Char.isDigit then
      .ok (if neg then -(Int.ofNat (digitsToNat ds)) else Int.ofNat (digitsToNat ds))
    else .error "int type expected"
  | .bool b => .ok (if b then 1 else 0)
  | _ => .error "int type expected"

/-- Required string field with a declared default for a missing key. -/
def fieldStr (kvs : List (String × Json)) (k : String) (dflt : String) :
    Except String String :=
  match lookupLast kvs k with
  | none => .ok dflt
  | some v => coerceStr v

/-- `Optional[str]` field: missing key or JSON null yield `none`. -/
def fieldOptStr (kvs : List (String × Json)) (k : String) :
    Except String (Option String) :=
  match lookupLast kvs k with
  | none => .ok none
  | some .null => .ok none
  | some v => do
    let s ← coerceStr v
    .ok (some s)

/-- `Optional[int]` field: missing key or JSON null yield `none`. -/
def fieldOptInt (kvs : List (String × Json)) (k : String) :
    Except String (Option Int) :=
  match lookupLast kvs k with
  | none => .ok none
  | some .null => .ok none
  | some v => do
    let i ← coerceInt v
    .ok (some i)

/-- Element-wise validation of a list (first failure aborts, matching the
ok-or-error outcome of pydantic list validation). -/
def mapExcept (f : Json → Except String α) : List Json → Except String (List α)
  | [] => .ok []
  | j :: js => do
    let a ← f j
    let as ← mapExcept f js
    .ok (a :: as)

/-- List field: a missing key yields the default-factory empty list; a
present value must be a JSON array (pydantic rejects scalars and strings
for sequence fields). -/
def fieldList (kvs : List (String × Json)) (k : String)
    (f : Json → Except String α) : Except String (List α) :=
  match lookupLast kvs k with
  | none => .ok []
  | some (.arr items) => mapExcept f items
  | some _ => .error "value is not a valid list"

/-- `Publication(**element)`: each list element must be a JSON object. -/
def pubOfJson : Json → Except String Publication
  | .obj kvs => do
    let title ← fieldStr kvs "title" "N/A"
    let journal ← fieldStr kvs "journal" "N/A"
    let year ← fieldOptInt kvs "year"
    .ok { title := title, journal := journal, year := year }
  | _ => .error "value is not a valid dict"

/-- `Grant(**element)`: each list element must be a JSON object. -/
def grantOfJson : Json → Except String Grant
  | .obj kvs => do
    let title ← fieldStr kvs "title" "N/A"
    let amount ← fieldOptStr kvs "amount"
    let year ← fieldOptInt kvs "year"
    let sponsor ← fieldOptStr kvs "sponsor"
    .ok { title := title, amount := amount, year := year, sponsor := sponsor }
  | _ => .error "value is not a valid dict"

/-- `CVProfile(**parsed)`: the decoded value must be a mapping; fields are
validated independently, missing keys take the declared defaults, extra
keys are ignored (pydantic v1 default). -/
def cvProfileOfJson : Json → Except String CVProfile
  | .obj kvs => do
    let name ← fieldStr kvs "name" "Unknown"
    let current_institution ← fieldStr kvs "current_institution" "N/A"
    let estimated_ranking ← fieldStr kvs "estimated_ranking" "N/A"
    let h_index ← fieldOptStr kvs "h_index"
    let research_focus_keywords ← fieldList kvs "research_focus_keywords" coerceStr
    let key_publications ← fieldList kvs "key_publications" pubOfJson
    let grants ← fieldList kvs "grants" grantOfJson
    let notes ← fieldStr kvs "notes" ""
    .ok { name := name
          current_institution := current_institution
          estimated_ranking := estimated_ranking
          h_index := h_index
          research_focus_keywords := research_focus_keywords
          key_publications := key_publications
          grants := grants
          notes := notes }
  | _ => .error "CVProfile expects a mapping"

/-- The body of the `try` block of `llm_structured_parse`: decode the reply
as JSON, then construct the schema object. -/
def cvParse (content : String) : Except String CVProfile := do
  let j ← parseJson content
  cvProfileOfJson j

/-! ## Wire shape of a profile (pydantic `.json()`) -/

/-- Wire shape of a `Publication`. -/
def pubToJson (p : Publication) : Json :=
  .obj [("title", .str p.title), ("journal", .str p.journal),
        ("year", match p.year with | none => .null | some y => .num y "")]

/-- Wire shape of a `Grant`. -/
def grantToJson (g : Grant) : Json :=
  .obj [("title", .str g.title),
        ("amount", match g.amount with | none => .null | some a => .str a),
        ("year", match g.year with | none => .null | some y => .num y ""),
        ("sponsor", match g.sponsor with | none => .null | some s => .str s)]

/-- Wire shape of a `CVProfile`: every field is emitted, `None` as null. -/
def cvProfileToJson (p : CVProfile) : Json :=
  .obj [("name", .str p.name),
        ("current_institution", .str p.current_institution),
        ("estimated_ranking", .str p.estimated_ranking),
        ("h_index", match p.h_index with | none => .null | some h => .str h),
        ("research_focus_keywords", .arr (p.research_focus_keywords.map .str)),
        ("key_publications", .arr (p.key_publications.map pubToJson)),
        ("grants", .arr (p.grants.map grantToJson)),
        ("notes", .str p.notes)]

/-- Minimal JSON string escaping for rendering. -/
def escapeJsonChar (c : Char) : List Char :=
  if c = '"' then ['\\', '"']
  else if c = '\\' then ['\\', '\\']
  else if c = '\n' then ['\\', 'n']
  else if c = '\t' then ['\\', 't']
  else if c = '\r' then ['\\', 'r']
  else [c]

/-- Compact textual rendering of a JSON value (stands in for
`profile.json(indent=2)`; only the opaque prompt text fed to the backend
depends on it, and no claim inspects that text). -/
def renderJson : Json → String
  | .null => "null"
  | .bool b => if b then "true" else "false"
  | .num i suffix => numText i suffix
  | .str s => "\"" ++ (s.data.flatMap escapeJsonChar).asString ++ "\""
  | .arr items => "\x5b" ++ String.intercalate ", " (items.attach.map fun j => renderJson j.1) ++ "\x5d"
  | .obj kvs => "\x7b" ++ String.intercalate ", "
      (kvs.attach.map fun kv => "\"" ++ kv.1.1 ++ "\": " ++ renderJson kv.1.2) ++ "\x7d"
decreasing_by
  · have h := List.sizeOf_lt_of_mem j.2
    simp only [Json.arr.sizeOf_spec]
    omega
  · have h := List.sizeOf_lt_of_mem kv.2
    have h2 : sizeOf kv.1.2 < sizeOf kv.1 := by
      obtain ⟨⟨k, v⟩, hm⟩ := kv
      simp
    simp only [Json.obj.sizeOf_spec]
    omega

/-! ## Generative completion adapter (`get_llm`) and chat messages -/

/-- Role-tagged chat messages (`SystemMessage` / `HumanMessage`). -/
inductive Message where
  | system (content : String)
  | human (content : String)
deriving Repr, DecidableEq

/-- The chat-model value constructed by `get_llm` (`ChatOpenAI` /
`ChatAnthropic` with the configured key, model and temperature). -/
inductive LLMClient where
  | chatOpenAI (api_key : String) (model : String) (temperature : ℚ)
  | chatAnthropic (api_key : String) (model : String) (temperature : ℚ)
deriving Repr, DecidableEq

/-- Python exceptions that can escape the embedded functions:
`valueError` is the `ValueError` of `get_llm` (the spec calls it
`ConfigurationError`); `upstreamError` is a backend failure raised out of
`llm.invoke` (the spec calls it `UpstreamError`). -/
inductive PyError where
  | valueError (msg : String)
  | upstreamError (msg : String)
deriving Repr, DecidableEq

/-- The network: what `llm.invoke(messages)` does for a given client.
`.ok` carries `response.content`; `.error` is a raised backend failure. -/
def Backend : Type := LLMClient → List Message → Except String String

/-- `get_llm(config)`: instantiate a chat model based on provider
selection; a pure switch that performs no backend call. -/
def get_llm (config : ModelConfig) : Except PyError LLMClient :=
  if config.provider = "openai" then
    .ok (.chatOpenAI config.api_key config.model 0.2)
  else if config.provider = "anthropic" then
    .ok (.chatAnthropic config.api_key config.model 0.2)
  else
    .error (.valueError "Unsupported provider. Choose \x27openai\x27 or \x27anthropic\x27.")

/-! ## Structured parse orchestrator (`llm_structured_parse`) -/

/-- The `messages` local of `llm_structured_parse`: the extraction prompt
plus the input text truncated to its first 12000 characters. -/
def llmParseMessages (text : String) : List Message :=
  [Message.system parsing_prompt, Message.human (text.take 12000)]

/-- The annotation appended to the heuristic notes on fallback. -/
def degradationNote : String := " | LLM parsing failed to return valid JSON."

/-- `llm_structured_parse(text, config)`.  The second component counts
backend invocations (the source has a single `llm.invoke` call site,
outside the `try` block).  Exceptions raised by `get_llm` or by the backend
call propagate; only the decode/validation of the reply is guarded by the
`try`/`except` fallback. -/
def llm_structured_parse (text : String) (config : ModelConfig)
    (backend : Backend) : Except PyError CVProfile × Nat :=
  match get_llm config with
  | .error e => (.error e, 0)
  | .ok llm =>
    match backend llm (llmParseMessages text) with
    | .error e => (.error (.upstreamError e), 1)
    | .ok content =>
      match cvParse content with
      | .ok parsed => (.ok parsed, 1)
      | .error _ =>
        let base := heuristic_extract text
        (.ok { base with notes := base.notes ++ degradationNote }, 1)

/-! ## Analysis orchestrator (`generate_match_report`) -/

/-- The degraded report built when the reply does not decode as JSON. -/
def degradedReport (content : String) : Json :=
  .obj [("suitability_score", .str "N/A"),
        ("reasoning", .str content),
        ("strengths", .arr []),
        ("gaps", .arr []),
        ("recommended_projects", .arr [])]

/-- The single system message sent by `generate_match_report`. -/
def matchMessages (profile : CVProfile) (target : String) : List Message :=
  [Message.system (matching_prompt (renderJson (cvProfileToJson profile)) target)]

/-- `generate_match_report(profile, target, config)`: produce the decoded
reply as-is when it is valid JSON (no schema validation), and the degraded
report on decode failure.  Second component counts backend invocations. -/
def generate_match_report (profile : CVProfile) (target : String)
    (config : ModelConfig) (backend : Backend) : Except PyError Json × Nat :=
  match get_llm config with
  | .error e => (.error e, 0)
  | .ok llm =>
    match backend llm (matchMessages profile target) with
    | .error e => (.error (.upstreamError e), 1)
    | .ok content =>
      match parseJson content with
      | .ok j => (.ok j, 1)
      | .error _ => (.ok (degradedReport content), 1)

/-! ## Spec-side definitions

These follow the words of the specification (not the source) and exist to
be compared against the code-derived definitions above. -/

/-- Modelled from the spec wording of the H-index rule: the pattern
"H-Index" (optionally hyphenated) followed by WHITESPACE and one or more
digits — i.e. the separator class is whitespace only, without the colon the
source regex also accepts. -/
def tryHIndexWsAt (cs : List Char) : Option String :=
  match cs with
  | [] => none
  | c :: rest =>
    if c.toLower = 'h' then
      match matchCI ['i', 'n', 'd', 'e', 'x'] (hyphenSkip rest) with
      | none => none
      | some rest3 =>
        if (rest3.takeWhile isPySpace).isEmpty then none
        else if (hDigitsAfter isPySpace rest3).isEmpty then none
        else some (hDigitsAfter isPySpace rest3).asString
    else none

/-- First match of the spec-worded (whitespace-separator) H-index rule. -/
def searchHIndexWs : List Char → Option String
  | [] => none
  | c :: rest =>
    match tryHIndexWsAt (c :: rest) with
    | some s => some s
    | none => searchHIndexWs rest

/-- Shape test: a JSON string. -/
def isJsonStr : Json → Bool
  | .str _ => true
  | _ => false

/-- Shape test: a JSON string or null. -/
def isJsonStrOrNull : Json → Bool
  | .null => true
  | .str _ => true
  | _ => false

/-- Shape test: an integral JSON number or null. -/
def isJsonIntOrNull : Json → Bool
  | .null => true
  | .num _ suffix => suffix.isEmpty
  | _ => false

/-- Member check for the publication objects of the extraction reply
schema of the spec: `title`/`journal` strings, `year` integer or null, no
other keys. -/
def specPubField (k : String) (v : Json) : Bool :=
  if k = "title" then isJsonStr v
  else if k = "journal" then isJsonStr v
  else if k = "year" then isJsonIntOrNull v
  else false

/-- A publication element matching the reply schema exactly. -/
def specPubOK : Json → Bool
  | .obj kvs => kvs.all fun kv => specPubField kv.1 kv.2
  | _ => false

/-- Member check for the grant objects of the extraction reply schema. -/
def specGrantField (k : String) (v : Json) : Bool :=
  if k = "title" then isJsonStr v
  else if k = "amount" then isJsonStrOrNull v
  else if k = "year" then isJsonIntOrNull v
  else if k = "sponsor" then isJsonStrOrNull v
  else false

/-- A grant element matching the reply schema exactly. -/
def specGrantOK : Json → Bool
  | .obj kvs => kvs.all fun kv => specGrantField kv.1 kv.2
  | _ => false

/-- Member check for the top-level extraction reply schema of the spec. -/
def specReplyField (k : String) (v : Json) : Bool :=
  if k = "name" then isJsonStr v
  else if k = "current_institution" then isJsonStr v
  else if k = "estimated_ranking" then isJsonStr v
  else if k = "h_index" then isJsonStrOrNull v
  else if k = "research_focus_keywords" then
    match v with
    | .arr items => items.all isJsonStr
    | _ => false
  else if k = "key_publications" then
    match v with
    | .arr items => items.all specPubOK
    | _ => false
  else if k = "grants" then
    match v with
    | .arr items => items.all specGrantOK
    | _ => false
  else if k = "notes" then isJsonStr v
  else false

/-- A generative reply matching the extraction reply schema exactly
(present keys drawn from the schema with values of the declared shapes;
any key may be omitted, in which case the declared default applies). -/
def specReplyOK : Json → Bool
  | .obj kvs => kvs.all fun kv => specReplyField kv.1 kv.2
  | _ => false

/-- Spec reading of a string field of the reply: the given string, or the
declared default when the key is omitted. -/
def specStrField (kvs : List (String × Json)) (k : String) (dflt : String) :
    String :=
  match lookupLast kvs k with
  | some (.str s) => s
  | _ => dflt

/-- Spec reading of an optional string field. -/
def specOptStrField (kvs : List (String × Json)) (k : String) : Option String :=
  match lookupLast kvs k with
  | some (.str s) => some s
  | _ => none

/-- Spec reading of an optional integer field. -/
def specOptIntField (kvs : List (String × Json)) (k : String) : Option Int :=
  match lookupLast kvs k with
  | some (.num i _) => some i
  | _ => none

/-- Spec reading of a schema-exact publication element. -/
def specPubOfJson (j : Json) : Publication :=
  match j with
  | .obj kvs =>
    { title := specStrField kvs "title" "N/A"
      journal := specStrField kvs "journal" "N/A"
      year := specOptIntField kvs "year" }
  | _ => {}

/-- Spec reading of a schema-exact grant element. -/
def specGrantOfJson (j : Json) : Grant :=
  match j with
  | .obj kvs =>
    { title := specStrField kvs "title" "N/A"
      amount := specOptStrField kvs "amount"
      year := specOptIntField kvs "year"
      sponsor := specOptStrField kvs "sponsor" }
  | _ => {}

/-- Spec reading of a JSON string element (schema-exact lists only contain
strings, so the fallback branch is never reached there). -/
def specStrOfJson (j : Json) : String :=
  match j with
  | .str s => s
  | _ => ""

/-- Spec reading of a list field: the element-wise interpretation of the
given array, empty when the key is omitted. -/
def specListField (kvs : List (String × Json)) (k : String)
    (g : Json → α) : List α :=
  match lookupLast kvs k with
  | some (.arr items) => items.map g
  | _ => []

/-- Modelled from the spec: the profile a schema-exact extraction reply
denotes — every field equal to the reply's field, with the declared
defaults filled in for omitted keys. -/
def specProfileOfReply (kvs : List (String × Json)) : CVProfile :=
  { name := specStrField kvs "name" "Unknown"
    current_institution := specStrField kvs "current_institution" "N/A"
    estimated_ranking := specStrField kvs "estimated_ranking" "N/A"
    h_index := specOptStrField kvs "h_index"
    research_focus_keywords := specListField kvs "research_focus_keywords" specStrOfJson
    key_publications := specListField kvs "key_publications" specPubOfJson
    grants := specListField kvs "grants" specGrantOfJson
    notes := specStrField kvs "notes" "" }

/-! ## Helper lemmas -/

theorem lookupLast_mem {kvs : List (String × Json)} {k : String} {v : Json}
    (h : lookupLast kvs k = some v) : (k, v) ∈ kvs := by
  induction kvs with
  | nil => simp [lookupLast] at h
  | cons kv rest ih =>
    obtain ⟨k2, v2⟩ := kv
    simp only [lookupLast] at h
    cases hrest : lookupLast rest k with
    | some v3 =>
      rw [hrest] at h
      cases h
      exact List.mem_cons_of_mem _ (ih hrest)
    | none =>
      rw [hrest] at h
      by_cases hk : k2 = k
      · rw [if_pos hk] at h
        cases h
        rw [hk]
        exact List.mem_cons_self _ _
      · rw [if_neg hk] at h
        cases h

/-- Reduction of the `Except` bind on a success value. -/
theorem ok_bind {α β : Type} (a : α) (f : α → Except String β) :
    (do
      let x ← Except.ok a
      f x) = f a := rfl

/-! ## C1: error behaviour of the structured parse orchestrator -/

/-- C1 (counterexample): the claim that `llm_structured_parse` never raises
and absorbs upstream errors into the heuristic fallback is false — with a
supported provider and a backend whose call fails, the upstream error
propagates to the caller instead of a fallback profile being returned
(`llm.invoke` sits outside the `try` block). -/
theorem llm_structured_parse_upstream_escape :
    llm_structured_parse "Jane Doe CV text" ⟨"openai", "gpt-4o", "key"⟩
        (fun _ _ => .error "rate limited") =
      (.error (.upstreamError "rate limited"), 1) := rfl

/-- C1 (amended): `llm_structured_parse` never raises once the adapter and
the backend call succeed — every decode or validation failure is absorbed
into the fallback; but a configuration error from `get_llm` and an
upstream backend failure both propagate to the caller. -/
theorem llm_structured_parse_error_paths (text : String) (config : ModelConfig)
    (backend : Backend) :
    (∀ e, get_llm config = .error e →
      llm_structured_parse text config backend = (.error e, 0)) ∧
    (∀ llm e, get_llm config = .ok llm →
      backend llm (llmParseMessages text) = .error e →
      llm_structured_parse text config backend = (.error (.upstreamError e), 1)) ∧
    (∀ llm reply, get_llm config = .ok llm →
      backend llm (llmParseMessages text) = .ok reply →
      ∃ p, llm_structured_parse text config backend = (.ok p, 1)) := by
  refine ⟨fun e he => by simp [llm_structured_parse, he],
          fun llm e hllm hbk => by simp [llm_structured_parse, hllm, hbk],
          fun llm reply hllm hbk => ?_⟩
  cases hcv : cvParse reply with
  | ok p => exact ⟨p, by simp [llm_structured_parse, hllm, hbk, hcv]⟩
  | error e =>
    refine ⟨{ heuristic_extract text with
              notes := (heuristic_extract text).notes ++ degradationNote }, ?_⟩
    simp [llm_structured_parse, hllm, hbk, hcv]

theorem llm_structured_parse_error_paths_witness :
    ∃ p, llm_structured_parse "cv text" ⟨"openai", "gpt-4o", "key"⟩
        (fun _ _ => .ok "not json at all") = (.ok p, 1) :=
  (llm_structured_parse_error_paths "cv text" ⟨"openai", "gpt-4o", "key"⟩
    (fun _ _ => .ok "not json at all")).2.2 _ "not json at all" rfl rfl

/-! ## C2: fallback profile on decode or validation failure -/

/-- C2: when the reply is syntactically invalid JSON or valid JSON whose
shape violates the profile schema, the orchestrator returns exactly the
heuristic extraction of the same text except for `notes`, and the final
`notes` is the heuristic note with the degradation annotation appended
(accumulated, not replaced). -/
theorem llm_structured_parse_fallback_profile
    (text : String) (config : ModelConfig) (backend : Backend)
    (llm : LLMClient) (reply : String)
    (hllm : get_llm config = .ok llm)
    (hbk : backend llm (llmParseMessages text) = .ok reply)
    (hfail : ∃ e, cvParse reply = .error e) :
    llm_structured_parse text config backend =
      (.ok { heuristic_extract text with
             notes := (heuristic_extract text).notes ++ degradationNote }, 1) ∧
    (heuristic_extract text).notes ++ degradationNote =
      "Heuristic extraction; refine with LLM for richer details. | LLM parsing failed to return valid JSON." := by
  obtain ⟨e, he⟩ := hfail
  exact ⟨by simp [llm_structured_parse, hllm, hbk, he], rfl⟩

theorem llm_structured_parse_fallback_profile_witness :
    llm_structured_parse "Lancet h-index: 12" ⟨"openai", "gpt-4o", "key"⟩
        (fun _ _ => .ok "\x7b\"key_publications\": \"oops\"\x7d") =
      (.ok { heuristic_extract "Lancet h-index: 12" with
             notes := (heuristic_extract "Lancet h-index: 12").notes ++ degradationNote }, 1) ∧
    (heuristic_extract "Lancet h-index: 12").notes ++ degradationNote =
      "Heuristic extraction; refine with LLM for richer details. | LLM parsing failed to return valid JSON." :=
  llm_structured_parse_fallback_profile _ _ _ _ _ rfl rfl
    ⟨"value is not a valid list", rfl⟩

/-! ## C8: unsupported provider fails before any backend call -/

/-- C8: for a provider that is neither openai nor anthropic, the adapter
fails immediately with the configuration `ValueError`, and the
orchestrators perform zero backend calls under such a configuration. -/
theorem get_llm_rejects_unknown_provider (config : ModelConfig)
    (h1 : config.provider ≠ "openai") (h2 : config.provider ≠ "anthropic") :
    get_llm config =
      .error (.valueError "Unsupported provider. Choose \x27openai\x27 or \x27anthropic\x27.") ∧
    (∀ text backend, (llm_structured_parse text config backend).2 = 0) ∧
    (∀ profile target backend,
      (generate_match_report profile target config backend).2 = 0) := by
  have hg : get_llm config =
      .error (.valueError "Unsupported provider. Choose \x27openai\x27 or \x27anthropic\x27.") := by
    simp [get_llm, h1, h2]
  refine ⟨hg, ?_, ?_⟩
  · intro text backend
    simp [llm_structured_parse, hg]
  · intro profile target backend
    simp [generate_match_report, hg]

theorem get_llm_rejects_unknown_provider_witness :
    get_llm ⟨"unsupported-vendor", "gpt-4o", "key"⟩ =
      .error (.valueError "Unsupported provider. Choose \x27openai\x27 or \x27anthropic\x27.") ∧
    (llm_structured_parse "cv text" ⟨"unsupported-vendor", "gpt-4o", "key"⟩
      (fun _ _ => .ok "stub reply")).2 = 0 ∧
    (generate_match_report {} "oncology" ⟨"unsupported-vendor", "gpt-4o", "key"⟩
      (fun _ _ => .ok "stub reply")).2 = 0 := by
  have h := get_llm_rejects_unknown_provider ⟨"unsupported-vendor", "gpt-4o", "key"⟩
    (by decide) (by decide)
  exact ⟨h.1, h.2.1 "cv text" _, h.2.2 {} "oncology" _⟩

/-! ## C9: the analysis orchestrator degrades on decode failure -/

/-- C9: an undecodable reply makes `generate_match_report` return the
degraded report: sentinel score, the raw reply text verbatim as reasoning,
and empty lists. -/
theorem generate_match_report_decode_fallback
    (profile : CVProfile) (target : String) (config : ModelConfig)
    (backend : Backend) (llm : LLMClient) (reply : String)
    (hllm : get_llm config = .ok llm)
    (hbk : backend llm (matchMessages profile target) = .ok reply)
    (hfail : ∃ e, parseJson reply = .error e) :
    generate_match_report profile target config backend =
      (.ok (.obj [("suitability_score", .str "N/A"),
                  ("reasoning", .str reply),
                  ("strengths", .arr []),
                  ("gaps", .arr []),
                  ("recommended_projects", .arr [])]), 1) := by
  obtain ⟨e, he⟩ := hfail
  simp [generate_match_report, hllm, hbk, he, degradedReport]

theorem generate_match_report_decode_fallback_witness :
    generate_match_report {} "oncology" ⟨"anthropic", "claude", "key"⟩
        (fun _ _ => .ok "Not JSON") =
      (.ok (.obj [("suitability_score", .str "N/A"),
                  ("reasoning", .str "Not JSON"),
                  ("strengths", .arr []),
                  ("gaps", .arr []),
                  ("recommended_projects", .arr [])]), 1) :=
  generate_match_report_decode_fallback _ _ _ _ _ _ rfl rfl
    ⟨"Expecting value", rfl⟩

/-! ## C10: the analysis orchestrator does not validate decoded replies -/

/-- C10: any syntactically valid JSON reply — of any shape, object or not —
is returned by `generate_match_report` unchanged, never triggering the
degraded-report branch. -/
theorem generate_match_report_returns_decoded
    (profile : CVProfile) (target : String) (config : ModelConfig)
    (backend : Backend) (llm : LLMClient) (reply : String) (j : Json)
    (hllm : get_llm config = .ok llm)
    (hbk : backend llm (matchMessages profile target) = .ok reply)
    (hok : parseJson reply = .ok j) :
    generate_match_report profile target config backend = (.ok j, 1) := by
  simp [generate_match_report, hllm, hbk, hok]

theorem generate_match_report_returns_decoded_witness :
    generate_match_report {} "oncology" ⟨"openai", "gpt-4o", "key"⟩
        (fun _ _ => .ok "42") = (.ok (.num 42 ""), 1) :=
  generate_match_report_returns_decoded _ _ _ _ _ _ _ rfl rfl rfl

/-! ## C3: the heuristic extractor is total and schema-valid -/

/-- C3: for every input text (the empty string included) the heuristic
extractor yields a complete profile: unset fields carry their declared
sentinels or empty lists, the keyword list is capped at ten entries, and
every publication entry is a fully populated record derived from the fixed
journal list. -/
theorem heuristic_extract_schema_valid (text : String) :
    (heuristic_extract text).name = "Unknown" ∧
    (heuristic_extract text).current_institution = "N/A" ∧
    (heuristic_extract text).estimated_ranking = "N/A" ∧
    (heuristic_extract text).grants = [] ∧
    (heuristic_extract text).notes =
      "Heuristic extraction; refine with LLM for richer details." ∧
    (heuristic_extract text).research_focus_keywords.length ≤ 10 ∧
    ∀ pub ∈ (heuristic_extract text).key_publications,
      pub.year = none ∧ pub.journal ∈ journalNames ∧
      pub.title = "Highlight from " ++ pub.journal := by
  refine ⟨rfl, rfl, rfl, rfl, rfl, ?_, ?_⟩
  · have h := List.length_take_le 10
      (dedupFirst (scanKeywords text.data false))
    exact h
  · intro pub hpub
    have hpubs : (heuristic_extract text).key_publications =
        (journalNames.filter (fun j => containsCI j.data text.data)).map
          journalPub := rfl
    rw [hpubs] at hpub
    obtain ⟨j, hjmem, rfl⟩ := List.mem_map.mp hpub
    exact ⟨rfl, List.mem_of_mem_filter hjmem, rfl⟩

theorem heuristic_extract_schema_valid_witness :
    (heuristic_extract "").name = "Unknown" ∧
    (heuristic_extract "").current_institution = "N/A" ∧
    (heuristic_extract "").estimated_ranking = "N/A" ∧
    (heuristic_extract "").grants = [] ∧
    (heuristic_extract "").notes =
      "Heuristic extraction; refine with LLM for richer details." ∧
    (heuristic_extract "").research_focus_keywords.length ≤ 10 ∧
    ∀ pub ∈ (heuristic_extract "").key_publications,
      pub.year = none ∧ pub.journal ∈ journalNames ∧
      pub.title = "Highlight from " ++ pub.journal :=
  heuristic_extract_schema_valid ""

/-! ## C4: journal hints appear exactly once each -/

/-- Publications built from journals outside a list never carry a journal
name from inside it. -/
theorem filter_map_journalPub_nil (l : List String) (cond : String → Bool)
    (j : String) (hj : j ∉ l) :
    ((l.filter cond).map journalPub).filter (fun p => p.journal = j) = [] := by
  induction l with
  | nil => rfl
  | cons a l ih =>
    have hja : j ≠ a := fun h => hj (h ▸ List.mem_cons_self a l)
    have hjl : j ∉ l := fun h => hj (List.mem_cons_of_mem a h)
    simp only [List.filter_cons]
    by_cases hca : cond a
    · simp only [hca, if_pos, List.map_cons, List.filter_cons]
      have : ((journalPub a).journal = j) = False := by
        simp [journalPub]
        exact fun h => hja h.symm
      simp [this, ih hjl]
    · simp [hca, ih hjl]

/-- Filtering the generated publications for a journal in a duplicate-free
journal list yields exactly the one entry for that journal when its
condition holds and nothing otherwise. -/
theorem filter_map_journalPub (l : List String) (cond : String → Bool)
    (j : String) (hnd : l.Nodup) (hj : j ∈ l) :
    ((l.filter cond).map journalPub).filter (fun p => p.journal = j) =
      if cond j then [journalPub j] else [] := by
  induction l with
  | nil => cases hj
  | cons a l ih =>
    obtain ⟨hal, hndl⟩ := List.nodup_cons.mp hnd
    rcases List.mem_cons.mp hj with rfl | hjl
    · simp only [List.filter_cons]
      by_cases hca : cond j
      · simp only [hca, if_pos, List.map_cons, List.filter_cons]
        have hjj : ((journalPub j).journal = j) = True := by simp [journalPub]
        simp [hjj, filter_map_journalPub_nil l cond j hal]
      · simp [hca, filter_map_journalPub_nil l cond j hal]
    · have hja : j ≠ a := fun h => hal (h ▸ hjl)
      simp only [List.filter_cons]
      by_cases hca : cond a
      · simp only [hca, if_pos, List.map_cons, List.filter_cons]
        have : ((journalPub a).journal = j) = False := by
          simp [journalPub]
          exact fun h => hja h.symm
        simp [this, ih hndl hjl]
      · simp [hca, ih hndl hjl]

/-- C4: a journal of the fixed set occurring case-insensitively in the text
contributes exactly one publication, titled with the journal name and
without a year; an absent journal contributes none. -/
theorem heuristic_extract_journal_hints (text : String) (j : String)
    (hj : j ∈ journalNames) :
    (containsCI j.data text.data = true →
      (heuristic_extract text).key_publications.filter
          (fun p => p.journal = j) =
        [{ title := "Highlight from " ++ j, journal := j, year := none }]) ∧
    (containsCI j.data text.data = false →
      ∀ p ∈ (heuristic_extract text).key_publications, p.journal ≠ j) := by
  have hpubs : (heuristic_extract text).key_publications =
      (journalNames.filter (fun s => containsCI s.data text.data)).map
        journalPub := rfl
  have key := filter_map_journalPub journalNames
    (fun s => containsCI s.data text.data) j (by decide) hj
  constructor
  · intro h
    rw [hpubs, key, if_pos h]
    rfl
  · intro h p hp
    rw [hpubs] at hp
    rw [if_neg (by simp [h])] at key
    have := List.filter_eq_nil_iff.mp key p hp
    simpa using this

theorem heuristic_extract_journal_hints_witness :
    ("Nature" ∈ journalNames) ∧
    ((containsCI "Nature".data "We published in NATURE and the lancet.".data = true →
      (heuristic_extract "We published in NATURE and the lancet.").key_publications.filter
          (fun p => p.journal = "Nature") =
        [{ title := "Highlight from Nature", journal := "Nature", year := none }]) ∧
    (containsCI "Nature".data "We published in NATURE and the lancet.".data = false →
      ∀ p ∈ (heuristic_extract "We published in NATURE and the lancet.").key_publications,
        p.journal ≠ "Nature")) :=
  ⟨by decide,
   heuristic_extract_journal_hints "We published in NATURE and the lancet." "Nature"
     (by decide)⟩

/-! ## C5: the H-index rule -/

theorem searchHIndex_none_iff (cs : List Char) :
    searchHIndex cs = none ↔ ∀ i, tryHIndexAt (cs.drop i) = none := by
  induction cs with
  | nil =>
    constructor
    · intro _ i
      rw [List.drop_nil]
      rfl
    · intro _
      rfl
  | cons c rest ih =>
    cases h : tryHIndexAt (c :: rest) with
    | some s =>
      simp only [searchHIndex, h]
      constructor
      · intro hc
        exact absurd hc (by simp)
      · intro hall
        have h0 := hall 0
        rw [List.drop_zero, h] at h0
        exact absurd h0 (by simp)
    | none =>
      simp only [searchHIndex, h]
      rw [ih]
      constructor
      · intro hall i
        cases i with
        | zero => rw [List.drop_zero]; exact h
        | succ n => rw [List.drop_succ_cons]; exact hall n
      · intro hall i
        have := hall (i + 1)
        rw [List.drop_succ_cons] at this
        exact this

theorem searchHIndex_some_iff (cs : List Char) (s : String) :
    searchHIndex cs = some s ↔
      ∃ i, tryHIndexAt (cs.drop i) = some s ∧
        ∀ j, j < i → tryHIndexAt (cs.drop j) = none := by
  induction cs with
  | nil =>
    constructor
    · intro hc
      exact absurd hc (by simp [searchHIndex])
    · rintro ⟨i, hi, -⟩
      rw [List.drop_nil] at hi
      exact absurd hi (by simp [tryHIndexAt])
  | cons c rest ih =>
    cases h : tryHIndexAt (c :: rest) with
    | some t =>
      simp only [searchHIndex, h]
      constructor
      · intro hc
        have hts : t = s := Option.some.inj hc
        subst hts
        exact ⟨0, by rw [List.drop_zero]; exact h,
               fun j hj => absurd hj (Nat.not_lt_zero j)⟩
      · rintro ⟨i, hi, hlt⟩
        cases i with
        | zero =>
          rw [List.drop_zero, h] at hi
          exact hi
        | succ n =>
          have h0 := hlt 0 (Nat.succ_pos n)
          rw [List.drop_zero, h] at h0
          exact absurd h0 (by simp)
    | none =>
      simp only [searchHIndex, h]
      rw [ih]
      constructor
      · rintro ⟨i, hi, hlt⟩
        refine ⟨i + 1, by rw [List.drop_succ_cons]; exact hi, ?_⟩
        intro j hj
        cases j with
        | zero => rw [List.drop_zero]; exact h
        | succ m =>
          rw [List.drop_succ_cons]
          exact hlt m (Nat.lt_of_succ_lt_succ hj)
      · rintro ⟨i, hi, hlt⟩
        cases i with
        | zero =>
          rw [List.drop_zero, h] at hi
          exact absurd hi (by simp)
        | succ n =>
          refine ⟨n, by rw [List.drop_succ_cons] at hi; exact hi, ?_⟩
          intro j hj
          have := hlt (j + 1) (Nat.succ_lt_succ hj)
          rw [List.drop_succ_cons] at this
          exact this

/-- A successful anchored match captures a nonempty digit run. -/
theorem tryHIndexAt_digits {cs : List Char} {s : String}
    (h : tryHIndexAt cs = some s) :
    s ≠ "" ∧ s.data.all Char.isDigit = true := by
  cases cs with
  | nil => exact absurd h (by simp [tryHIndexAt])
  | cons c rest =>
    simp only [tryHIndexAt] at h
    split at h
    · split at h
      · exact absurd h (by simp)
      · split at h
        · exact absurd h (by simp)
        · split at h
          · exact absurd h (by simp)
          · rename_i rest3 hm hsep hdig
            have hs : s = (hDigitsAfter isHSep rest3).asString :=
              (Option.some.inj h).symm
            subst hs
            constructor
            · intro he
              have hdata : hDigitsAfter isHSep rest3 = [] := by
                have := congrArg String.data he
                simpa using this
              rw [hdata] at hdig
              simp at hdig
            · rw [List.all_eq_true]
              intro x hx
              have hx2 : x ∈ (hDigitsAfter isHSep rest3).asString.data := hx
              have hx3 : x ∈ hDigitsAfter isHSep rest3 := by
                simpa using hx2
              exact List.mem_takeWhile_imp hx3
    · exact absurd h (by simp)

/-- C5 (counterexample): on the input "H-Index:37" the separator between
the keyword and the digits is a colon with no whitespace, so the
spec-worded pattern ("followed by whitespace and one or more digits")
matches nowhere and the claim predicts a null h_index — but the source
regex accepts the colon in its `[:\s]+` class and extracts "37". -/
theorem h_index_colon_separator_diverges :
    (heuristic_extract "H-Index:37").h_index = some "37" ∧
    searchHIndexWs "H-Index:37".data = none := ⟨rfl, rfl⟩

/-- C5 (amended): h_index is the digit run captured at the first (leftmost)
position where the pattern "H, optional hyphen, Index (case-insensitive),
one or more colon-or-whitespace characters, one or more digits" matches,
and null when no position matches; any captured value is a nonempty digit
run. -/
theorem heuristic_h_index_first_match (text : String) :
    (heuristic_extract text).h_index = searchHIndex text.data ∧
    ((heuristic_extract text).h_index = none ↔
      ∀ i, tryHIndexAt (text.data.drop i) = none) ∧
    (∀ s, (heuristic_extract text).h_index = some s ↔
      ∃ i, tryHIndexAt (text.data.drop i) = some s ∧
        ∀ j, j < i → tryHIndexAt (text.data.drop j) = none) ∧
    (∀ s, (heuristic_extract text).h_index = some s →
      s ≠ "" ∧ s.data.all Char.isDigit = true) := by
  have hh : (heuristic_extract text).h_index = searchHIndex text.data := rfl
  refine ⟨hh, ?_, ?_, ?_⟩
  · rw [hh]
    exact searchHIndex_none_iff text.data
  · intro s
    rw [hh]
    exact searchHIndex_some_iff text.data s
  · intro s hs
    rw [hh] at hs
    obtain ⟨i, hi, -⟩ := (searchHIndex_some_iff text.data s).mp hs
    exact tryHIndexAt_digits hi

theorem heuristic_h_index_first_match_witness :
    (heuristic_extract "An h-INDEX: 37 highlight").h_index = some "37" ∧
    ((heuristic_extract "no numbers here").h_index = none ↔
      ∀ i, tryHIndexAt ("no numbers here".data.drop i) = none) :=
  ⟨rfl, (heuristic_h_index_first_match "no numbers here").2.1⟩

/-! ## C7: wire-shape round trip -/

theorem pubOfJson_toJson (p : Publication) : pubOfJson (pubToJson p) = .ok p := by
  obtain ⟨t, j, y⟩ := p
  cases y <;> rfl

theorem grantOfJson_toJson (g : Grant) : grantOfJson (grantToJson g) = .ok g := by
  obtain ⟨t, a, y, s⟩ := g
  cases a <;> cases y <;> cases s <;> rfl

theorem mapExcept_roundtrip {α : Type} (f : Json → Except String α)
    (g : α → Json) (hfg : ∀ a, f (g a) = .ok a) (l : List α) :
    mapExcept f (l.map g) = .ok l := by
  induction l with
  | nil => rfl
  | cons a l ih => simp [mapExcept, hfg, ih, ok_bind]

/-- C7: serializing a profile to its wire JSON shape and validating the
decoded mapping back through the schema component yields the original
profile in every field. -/
theorem cvProfile_round_trip (p : CVProfile) :
    cvProfileOfJson (cvProfileToJson p) = .ok p := by
  obtain ⟨n, ci, er, hi, ks, pubs, gs, notes⟩ := p
  have hks : mapExcept coerceStr (ks.map Json.str) = .ok ks :=
    mapExcept_roundtrip coerceStr Json.str (fun _ => rfl) ks
  have hpubs : mapExcept pubOfJson (pubs.map pubToJson) = .ok pubs :=
    mapExcept_roundtrip pubOfJson pubToJson pubOfJson_toJson pubs
  have hgs : mapExcept grantOfJson (gs.map grantToJson) = .ok gs :=
    mapExcept_roundtrip grantOfJson grantToJson grantOfJson_toJson gs
  cases hi <;>
    simp [cvProfileToJson, cvProfileOfJson, fieldStr, fieldOptStr, fieldOptInt,
          fieldList, lookupLast, coerceStr, hks, hpubs, hgs, ok_bind]

/-! ## C6: schema-exact replies are returned with defaults filled -/

theorem lookup_check {check : String × Json → Bool} {kvs : List (String × Json)}
    {k : String} {v : Json} (hall : kvs.all check = true)
    (hl : lookupLast kvs k = some v) : check (k, v) = true :=
  List.all_eq_true.mp hall _ (lookupLast_mem hl)

theorem fieldStr_spec {kvs : List (String × Json)} {k : String} {dflt : String}
    (h : ∀ v, lookupLast kvs k = some v → isJsonStr v = true) :
    fieldStr kvs k dflt = .ok (specStrField kvs k dflt) := by
  unfold fieldStr specStrField
  cases hl : lookupLast kvs k with
  | none => rfl
  | some v =>
    have hv := h v hl
    cases v <;> simp_all [isJsonStr, coerceStr]

theorem fieldOptStr_spec {kvs : List (String × Json)} {k : String}
    (h : ∀ v, lookupLast kvs k = some v → isJsonStrOrNull v = true) :
    fieldOptStr kvs k = .ok (specOptStrField kvs k) := by
  unfold fieldOptStr specOptStrField
  cases hl : lookupLast kvs k with
  | none => rfl
  | some v =>
    have hv := h v hl
    cases v <;> simp_all [isJsonStrOrNull, coerceStr, ok_bind]

theorem fieldOptInt_spec {kvs : List (String × Json)} {k : String}
    (h : ∀ v, lookupLast kvs k = some v → isJsonIntOrNull v = true) :
    fieldOptInt kvs k = .ok (specOptIntField kvs k) := by
  unfold fieldOptInt specOptIntField
  cases hl : lookupLast kvs k with
  | none => rfl
  | some v =>
    have hv := h v hl
    cases v <;> simp_all [isJsonIntOrNull, coerceInt, ok_bind]

theorem coerceStr_spec {v : Json} (h : isJsonStr v = true) :
    coerceStr v = .ok (specStrOfJson v) := by
  cases v <;> simp_all [isJsonStr, coerceStr, specStrOfJson]

theorem mapExcept_spec {α : Type} {f : Json → Except String α} {g : Json → α}
    {chk : Json → Bool} (hfg : ∀ j, chk j = true → f j = .ok (g j))
    {items : List Json} (h : items.all chk = true) :
    mapExcept f items = .ok (items.map g) := by
  induction items with
  | nil => rfl
  | cons j js ih =>
    rw [List.all_cons, Bool.and_eq_true] at h
    simp [mapExcept, hfg j h.1, ih h.2, ok_bind]

theorem fieldList_spec {α : Type} {f : Json → Except String α} {g : Json → α}
    {chk : Json → Bool} (hfg : ∀ j, chk j = true → f j = .ok (g j))
    {kvs : List (String × Json)} {k : String}
    (h : ∀ v, lookupLast kvs k = some v →
      (match v with | Json.arr items => items.all chk | _ => false) = true) :
    fieldList kvs k f = .ok (specListField kvs k g) := by
  unfold fieldList specListField
  cases hl : lookupLast kvs k with
  | none => rfl
  | some v =>
    have hv := h v hl
    cases v with
    | arr items => exact mapExcept_spec hfg hv
    | null => simp at hv
    | bool b => simp at hv
    | num i suffix => simp at hv
    | str s => simp at hv
    | obj fields => simp at hv

theorem pubOfJson_spec {j : Json} (h : specPubOK j = true) :
    pubOfJson j = .ok (specPubOfJson j) := by
  cases j with
  | obj kvs =>
    simp only [specPubOK] at h
    have ht : ∀ v, lookupLast kvs "title" = some v → isJsonStr v = true :=
      fun v hv => by simpa [specPubField] using lookup_check h hv
    have hj : ∀ v, lookupLast kvs "journal" = some v → isJsonStr v = true :=
      fun v hv => by simpa [specPubField] using lookup_check h hv
    have hy : ∀ v, lookupLast kvs "year" = some v → isJsonIntOrNull v = true :=
      fun v hv => by simpa [specPubField] using lookup_check h hv
    simp [pubOfJson, specPubOfJson, fieldStr_spec ht, fieldStr_spec hj,
          fieldOptInt_spec hy, ok_bind]
  | null => simp [specPubOK] at h
  | bool b => simp [specPubOK] at h
  | num i suffix => simp [specPubOK] at h
  | str s => simp [specPubOK] at h
  | arr items => simp [specPubOK] at h

theorem grantOfJson_spec {j : Json} (h : specGrantOK j = true) :
    grantOfJson j = .ok (specGrantOfJson j) := by
  cases j with
  | obj kvs =>
    simp only [specGrantOK] at h
    have ht : ∀ v, lookupLast kvs "title" = some v → isJsonStr v = true :=
      fun v hv => by simpa [specGrantField] using lookup_check h hv
    have ha : ∀ v, lookupLast kvs "amount" = some v → isJsonStrOrNull v = true :=
      fun v hv => by simpa [specGrantField] using lookup_check h hv
    have hy : ∀ v, lookupLast kvs "year" = some v → isJsonIntOrNull v = true :=
      fun v hv => by simpa [specGrantField] using lookup_check h hv
    have hs : ∀ v, lookupLast kvs "sponsor" = some v → isJsonStrOrNull v = true :=
      fun v hv => by simpa [specGrantField] using lookup_check h hv
    simp [grantOfJson, specGrantOfJson, fieldStr_spec ht, fieldOptStr_spec ha,
          fieldOptInt_spec hy, fieldOptStr_spec hs, ok_bind]
  | null => simp [specGrantOK] at h
  | bool b => simp [specGrantOK] at h
  | num i suffix => simp [specGrantOK] at h
  | str s => simp [specGrantOK] at h
  | arr items => simp [specGrantOK] at h

theorem cvProfileOfJson_spec {kvs : List (String × Json)}
    (h : specReplyOK (.obj kvs) = true) :
    cvProfileOfJson (.obj kvs) = .ok (specProfileOfReply kvs) := by
  simp only [specReplyOK] at h
  have hname : ∀ v, lookupLast kvs "name" = some v → isJsonStr v = true :=
    fun v hv => by simpa [specReplyField] using lookup_check h hv
  have hci : ∀ v, lookupLast kvs "current_institution" = some v →
      isJsonStr v = true :=
    fun v hv => by simpa [specReplyField] using lookup_check h hv
  have her : ∀ v, lookupLast kvs "estimated_ranking" = some v →
      isJsonStr v = true :=
    fun v hv => by simpa [specReplyField] using lookup_check h hv
  have hhi : ∀ v, lookupLast kvs "h_index" = some v → isJsonStrOrNull v = true :=
    fun v hv => by simpa [specReplyField] using lookup_check h hv
  have hkw : ∀ v, lookupLast kvs "research_focus_keywords" = some v →
      (match v with | Json.arr items => items.all isJsonStr | _ => false) = true :=
    fun v hv => by simpa [specReplyField] using lookup_check h hv
  have hpub : ∀ v, lookupLast kvs "key_publications" = some v →
      (match v with | Json.arr items => items.all specPubOK | _ => false) = true :=
    fun v hv => by simpa [specReplyField] using lookup_check h hv
  have hgr : ∀ v, lookupLast kvs "grants" = some v →
      (match v with | Json.arr items => items.all specGrantOK | _ => false) = true :=
    fun v hv => by simpa [specReplyField] using lookup_check h hv
  have hnotes : ∀ v, lookupLast kvs "notes" = some v → isJsonStr v = true :=
    fun v hv => by simpa [specReplyField] using lookup_check h hv
  simp [cvProfileOfJson, specProfileOfReply, fieldStr_spec hname,
        fieldStr_spec hci, fieldStr_spec her, fieldOptStr_spec hhi,
        fieldList_spec (fun _ hj => coerceStr_spec hj) hkw,
        fieldList_spec (fun _ hj => pubOfJson_spec hj) hpub,
        fieldList_spec (fun _ hj => grantOfJson_spec hj) hgr,
        fieldStr_spec hnotes, ok_bind]

/-- C6: a reply that is valid JSON matching the extraction reply schema
exactly makes the orchestrator return the profile the reply denotes —
every field equal to the reply's field, with the declared defaults filled
in for omitted keys (a missing `notes` becomes the empty string). -/
theorem llm_structured_parse_valid_reply
    (text : String) (config : ModelConfig) (backend : Backend)
    (llm : LLMClient) (reply : String) (kvs : List (String × Json))
    (hllm : get_llm config = .ok llm)
    (hbk : backend llm (llmParseMessages text) = .ok reply)
    (hjson : parseJson reply = .ok (.obj kvs))
    (hschema : specReplyOK (.obj kvs) = true) :
    llm_structured_parse text config backend =
      (.ok (specProfileOfReply kvs), 1) := by
  have hcv : cvParse reply = .ok (specProfileOfReply kvs) := by
    simp [cvParse, hjson, cvProfileOfJson_spec hschema, ok_bind]
  simp [llm_structured_parse, hllm, hbk, hcv]

theorem llm_structured_parse_valid_reply_witness :
    llm_structured_parse "cv text" ⟨"openai", "gpt-4o", "key"⟩
        (fun _ _ => .ok "\x7b\"name\": \"Ada Zhang\", \"h_index\": \"42\", \"key_publications\": \x5b\x7b\"title\": \"Checkpoint modulation\", \"journal\": \"Nature\", \"year\": 2023\x7d\x5d\x7d") =
      (.ok { name := "Ada Zhang", current_institution := "N/A",
             estimated_ranking := "N/A", h_index := some "42",
             research_focus_keywords := [],
             key_publications :=
               [{ title := "Checkpoint modulation", journal := "Nature",
                  year := some 2023 }],
             grants := [], notes := "" }, 1) :=
  llm_structured_parse_valid_reply _ _ _ _ _
    [("name", .str "Ada Zhang"), ("h_index", .str "42"),
     ("key_publications",
       .arr [.obj [("title", .str "Checkpoint modulation"),
                   ("journal", .str "Nature"), ("year", .num 2023 "")]])]
    rfl rfl rfl rfl

